import Mathlib

/- Verification of the foreman_ldap Ansible module
   (src/foreman_ldap.py and src/module_utils/foreman_utils.py).

   Shallow embedding: Python dictionaries become association lists of
   string keys to `Value`s, the remote Foreman API becomes an explicit
   `Remote` environment (current record, name-to-id lookup tables, and
   injectable remote errors), and every remote call performed by a run is
   collected in a `Call` log so that "exactly one create was issued" and
   similar statements are expressible.  `module.fail_json` and Python
   runtime errors (NameError) become the `Failure` error monad. -/

namespace ForemanLdap

/-- Values stored in the Python dictionaries involved: strings, integers,
booleans, lists of identifiers, lists of names. -/
inductive Value where
  | vstr : String → Value
  | vint : Int → Value
  | vbool : Bool → Value
  | vids : List Int → Value
  | vnames : List String → Value
deriving DecidableEq, Repr

/-- Python truthiness of a value, as tested by `if module.params[key]:`. -/
def Value.truthy : Value → Bool
  | .vstr s => s != ""
  | .vint n => n != 0
  | .vbool b => b
  | .vids l => !l.isEmpty
  | .vnames l => !l.isEmpty

/-- A Python dict with string keys: an association list, first binding wins
on lookup (our construction keeps keys distinct, as a dict does). -/
abbrev AttrMap := List (String × Value)

/-- Lookup, i.e. Python `d.get(key)` (`None` becomes `Option.none`). -/
def AttrMap.get : AttrMap → String → Option Value
  | [], _ => none
  | (k, v) :: rest, key => if k = key then some v else AttrMap.get rest key

/-- Python `key in d`. -/
def AttrMap.contains (m : AttrMap) (k : String) : Bool :=
  (m.get k).isSome

/-- Python `d[key] = v`: overwrite in place, or append a new binding. -/
def AttrMap.set : AttrMap → String → Value → AttrMap
  | [], key, v => [(key, v)]
  | (k, w) :: rest, key, v =>
      if k = key then (k, v) :: rest else (k, w) :: AttrMap.set rest key v

/-- Keys of an association list are pairwise distinct. -/
def NodupKeys (m : AttrMap) : Prop := (m.map Prod.fst).Nodup

/-- Applying a dict as an overlay onto a record: every binding of `d` is
written into `r` (the model of what an update leaves stored remotely). -/
def overlay (r d : AttrMap) : AttrMap :=
  d.foldl (fun acc kv => acc.set kv.1 kv.2) r

/-- Outcome of one remote name lookup (`search_organization` /
`search_location`): an entity with an id, no entity, or a ForemanError
carrying a message. -/
inductive LookupResult where
  | found : Int → LookupResult
  | notFound : LookupResult
  | remoteError : String → LookupResult
deriving DecidableEq, Repr

/-- How an invocation dies: a clean `module.fail_json(msg=...)`, or an
unhandled Python NameError naming the undefined identifier. -/
inductive Failure where
  | failJson : String → Failure
  | nameError : String → Failure
deriving DecidableEq, Repr

/-- One remote API call, as logged by a run. -/
inductive Call where
  | searchLdap : String → Call
  | getLdap : Option Value → Call
  | searchOrg : String → Call
  | searchLoc : String → Call
  | createLdap : AttrMap → Call
  | updateLdap : Option Value → AttrMap → Call
  | deleteLdap : Option Value → Call
deriving DecidableEq, Repr

/-- Calls that mutate remote state: create, update, delete. -/
def Call.isMutating : Call → Bool
  | .createLdap _ => true
  | .updateLdap _ _ => true
  | .deleteLdap _ => true
  | _ => false

/-- The mutating calls of a log. -/
def mutations (cs : List Call) : List Call :=
  cs.filter Call.isMutating

/-- The organization searches of a log. -/
def Call.isOrgSearch : Call → Bool
  | .searchOrg _ => true
  | _ => false

/-- The location searches of a log. -/
def Call.isLocSearch : Call → Bool
  | .searchLoc _ => true
  | _ => false

/-- The shape of a call, its payload forgotten. -/
inductive CallKind where
  | searchLdap | getLdap | searchOrg | searchLoc | create | update | delete
deriving DecidableEq, Repr

/-- Kind of a call. -/
def Call.kind : Call → CallKind
  | .searchLdap _ => .searchLdap
  | .getLdap _ => .getLdap
  | .searchOrg _ => .searchOrg
  | .searchLoc _ => .searchLoc
  | .createLdap _ => .create
  | .updateLdap _ _ => .update
  | .deleteLdap _ => .delete

/-- The module parameters after AnsibleModule processing (`argument_spec` of
`main`): required fields and defaulted fields are always present, optional
fields without a default are `none` when the caller did not supply them. -/
structure Params where
  name : String
  state : String
  host : String
  port : Int
  tls : Bool
  base_dn : Option String
  account : Option String
  account_password : Option String
  attr_login : Option String
  attr_firstname : Option String
  attr_lastname : Option String
  attr_mail : Option String
  attr_photo : Option String
  onthefly_register : Option Bool
  usergroup_sync : Option Bool
  groups_base : Option String
  server_type : Option String
  ldap_filter : Option String
  organizations : Option (List String)
  locations : Option (List String)
deriving DecidableEq, Repr

/-- Python `module.params[key]` for the keys the attribute-build loop reads. -/
def Params.get (p : Params) (key : String) : Option Value :=
  if key = "host" then some (.vstr p.host)
  else if key = "port" then some (.vint p.port)
  else if key = "tls" then some (.vbool p.tls)
  else if key = "base_dn" then p.base_dn.map .vstr
  else if key = "account" then p.account.map .vstr
  else if key = "account_password" then p.account_password.map .vstr
  else if key = "attr_login" then p.attr_login.map .vstr
  else if key = "attr_firstname" then p.attr_firstname.map .vstr
  else if key = "attr_lastname" then p.attr_lastname.map .vstr
  else if key = "attr_mail" then p.attr_mail.map .vstr
  else if key = "attr_photo" then p.attr_photo.map .vstr
  else if key = "onthefly_register" then p.onthefly_register.map .vbool
  else if key = "usergroup_sync" then p.usergroup_sync.map .vbool
  else if key = "groups_base" then p.groups_base.map .vstr
  else if key = "server_type" then p.server_type.map .vstr
  else if key = "ldap_filter" then p.ldap_filter.map .vstr
  else none

/-- The comparison key list of `ensure` (foreman_ldap.py lines 177-179). -/
def cmp_keys : List String :=
  ["host", "port", "base_dn", "account", "attr_login", "attr_firstname",
   "attr_lastname", "attr_mail", "attr_photo", "onthefly_register",
   "usergroup_sync", "ldap_filter", "tls", "groups_base", "server_type"]

/-- The attribute key list: `keys = cmp_keys + ['account_password']`. -/
def keys : List String := cmp_keys ++ ["account_password"]

/-- The attribute-build loop of `ensure` over a given key list:
`for key in keys: if module.params[key]: data[key] = module.params[key]`. -/
def buildFold (p : Params) : List String → AttrMap → AttrMap
  | [], d => d
  | key :: rest, d =>
      buildFold p rest
        (match p.get key with
         | some v => if v.truthy then d.set key v else d
         | none => d)

/-- The working attribute set of `ensure` before association resolution:
`data = {'name': name}` followed by the build loop over `keys`. -/
def buildData (p : Params) : AttrMap :=
  buildFold p keys [("name", .vstr p.name)]

/-- Identifier list carried by a value (an `organization_ids` /
`location_ids` entry always holds one). -/
def idsOf : Value → List Int
  | .vids l => l
  | _ => []

/-- Identifier list of an optional dict entry, `[]` when absent. -/
def idsOfOpt : Option Value → List Int
  | some v => idsOf v
  | none => []

/-- Set equality of two identifier lists: order irrelevant, duplicates
collapse. -/
def eqAsSets (a b : List Int) : Bool :=
  a.all (fun x => decide (x ∈ b)) && b.all (fun x => decide (x ∈ a))

/-- Modelled from the spec: `organizations_equal` is called by `ldaps_equal`
but is missing from this repository (src/module_utils/foreman_utils.py does
not define it).  Per the spec the resolved organization-identifier sets are
compared for exact set equality (order irrelevant, duplicates collapse), and
a key absent from the desired overlay never forces a mismatch. -/
def organizations_equal (data ldap : AttrMap) : Bool :=
  match data.get "organization_ids" with
  | none => true
  | some v => eqAsSets (idsOf v) (idsOfOpt (ldap.get "organization_ids"))

/-- Modelled from the spec: `locations_equal` is called by `ldaps_equal` but
is missing from this repository (src/module_utils/foreman_utils.py does not
define it).  Same set comparison as `organizations_equal`, over the resolved
location identifiers. -/
def locations_equal (data ldap : AttrMap) : Bool :=
  match data.get "location_ids" with
  | none => true
  | some v => eqAsSets (idsOf v) (idsOfOpt (ldap.get "location_ids"))

/-- `ldaps_equal` (foreman_ldap.py lines 158-166), with the two missing
helpers completed from the spec: false as soon as a comparison key present
in `data` differs from `ldap`, then the two association-set comparisons. -/
def ldaps_equal (data ldap : AttrMap) (ck : List String) : Bool :=
  if ck.any (fun key => data.contains key && data.get key != ldap.get key) then
    false
  else if !organizations_equal data ldap then false
  else if !locations_equal data ldap then false
  else true

/-- `ldaps_equal` exactly as the repository ships it: the per-key loop can
return `False`, but once it completes, the call `organizations_equal(data,
ldap)` hits a name defined nowhere in the source, so Python raises a
NameError instead of ever reaching `return True`. -/
def ldapsEqualSrc (data ldap : AttrMap) (ck : List String) :
    Except Failure Bool :=
  if ck.any (fun key => data.contains key && data.get key != ldap.get key) then
    .ok false
  else .error (.nameError "organizations_equal")

/-- `get_organization_ids` (module_utils/foreman_utils.py lines 10-20),
with its call log.  The loop fails fast on the first unresolvable name.  In
the ForemanError branch the source formats its message with `locations[i]`,
a name that does not exist in that function's scope, so that branch dies
with a NameError rather than the intended `fail_json` message. -/
def get_organization_ids (lookup : String → LookupResult) :
    List String → Except Failure (List Int) × List Call
  | [] => (.ok [], [])
  | n :: rest =>
    match lookup n with
    | .found i =>
        ((get_organization_ids lookup rest).1.map (fun ids => i :: ids),
         .searchOrg n :: (get_organization_ids lookup rest).2)
    | .notFound =>
        (.error (.failJson ("Could not find Organization " ++ n)), [.searchOrg n])
    | .remoteError _ =>
        (.error (.nameError "locations"), [.searchOrg n])

/-- `get_location_ids` (module_utils/foreman_utils.py lines 22-32), with its
call log.  Here the ForemanError branch formats the intended message:
`Search for Location '<name>' throws an Error: <message>`. -/
def get_location_ids (lookup : String → LookupResult) :
    List String → Except Failure (List Int) × List Call
  | [] => (.ok [], [])
  | n :: rest =>
    match lookup n with
    | .found i =>
        ((get_location_ids lookup rest).1.map (fun ids => i :: ids),
         .searchLoc n :: (get_location_ids lookup rest).2)
    | .notFound =>
        (.error (.failJson ("Could not find Location " ++ n)), [.searchLoc n])
    | .remoteError e =>
        (.error (.failJson ("Search for Location '" ++ n ++ "' throws an Error: " ++ e)),
         [.searchLoc n])

/-- The remote Foreman system as one invocation sees it: the record stored
under the target name (`search_auth_source_ldap` returns it,
`get_auth_source_ldap` re-fetches it by id — the spec's uniqueness invariant
makes both reads of the same stored record), the two name-to-id lookup
tables, the id the remote would assign to a created record, and injectable
ForemanErrors for the four record operations. -/
structure Remote where
  record : Option AttrMap
  orgLookup : String → LookupResult
  locLookup : String → LookupResult
  freshId : Int
  searchErr : Option String
  createErr : Option String
  updateErr : Option String
  deleteErr : Option String

/-- Python truthiness of the `ldap` variable (a dict or `None`). -/
def pyTruthyDict : Option AttrMap → Bool
  | none => false
  | some d => !d.isEmpty

/-- Association resolution of `ensure` (lines 194-197): build the working
attribute set, then resolve `organizations` and `locations` whenever they
are not `None`, in that order, failing fast. -/
def resolveData (p : Params) (orgL locL : String → LookupResult) :
    Except Failure AttrMap × List Call :=
  match p.organizations with
  | none =>
    (match p.locations with
     | none => (.ok (buildData p), [])
     | some lnames =>
       match get_location_ids locL lnames with
       | (.error f, cs) => (.error f, cs)
       | (.ok ids, cs) => (.ok ((buildData p).set "location_ids" (.vids ids)), cs))
  | some onames =>
    match get_organization_ids orgL onames with
    | (.error f, cs) => (.error f, cs)
    | (.ok oids, cs) =>
      match p.locations with
      | none => (.ok ((buildData p).set "organization_ids" (.vids oids)), cs)
      | some lnames =>
        match get_location_ids locL lnames with
        | (.error f, cs2) => (.error f, cs ++ cs2)
        | (.ok ids, cs2) =>
          (.ok (((buildData p).set "organization_ids" (.vids oids)).set
                  "location_ids" (.vids ids)),
           cs ++ cs2)

/-- What `ensure` returns on success: `True` after create or delete,
`(True, ldap)` — a two-tuple, not a boolean — after update, `False`
otherwise. -/
inductive EnsureResult where
  | changed : EnsureResult
  | changedPair : AttrMap → EnsureResult
  | unchanged : EnsureResult
deriving DecidableEq, Repr

/-- Whether the returned value is truthy, i.e. whether the run reported a
change (a nonempty tuple is truthy in Python). -/
def EnsureResult.reportsChanged : EnsureResult → Bool
  | .changed => true
  | .changedPair _ => true
  | .unchanged => false

/-- The decision block of `ensure` (lines 199-220): create when no truthy
record exists and state is present; else, on a truthy record, delete when
state is absent, update when the comparator denies equality, and fall
through to `return False` otherwise. -/
def ensureDecide (p : Params) (remote : Remote) (ldap : Option AttrMap)
    (data : AttrMap) : Except Failure EnsureResult × List Call :=
  if !pyTruthyDict ldap && p.state == "present" then
    match remote.createErr with
    | some e => (.error (.failJson ("Could not create ldap: " ++ e)), [.createLdap data])
    | none => (.ok .changed, [.createLdap data])
  else if pyTruthyDict ldap then
    if p.state == "absent" then
      match remote.deleteErr with
      | some e => (.error (.failJson ("Could not delete ldap: " ++ e)),
                   [.deleteLdap ((ldap.getD []).get "id")])
      | none => (.ok .changed, [.deleteLdap ((ldap.getD []).get "id")])
    else if !ldaps_equal data (ldap.getD []) cmp_keys then
      match remote.updateErr with
      | some e => (.error (.failJson ("Could not update hostgroup: " ++ e)),
                   [.updateLdap ((ldap.getD []).get "id") data])
      | none => (.ok (.changedPair (overlay (ldap.getD []) data)),
                 [.updateLdap ((ldap.getD []).get "id") data])
    else (.ok .unchanged, [])
  else (.ok .unchanged, [])

/-- The read-only fetch calls of `ensure` (lines 185-187): the name search,
then — when it found a truthy record — the re-fetch by id. -/
def fetchCalls (p : Params) (ldap : Option AttrMap) : List Call :=
  .searchLdap p.name ::
    (if pyTruthyDict ldap then [.getLdap ((ldap.getD []).get "id")] else [])

/-- `ensure` (foreman_ldap.py lines 169-220): fetch the current record
(failing with `Could not get ldap:` on a ForemanError), build the working
attribute set, resolve associations, then decide. -/
def ensure (p : Params) (remote : Remote) : Except Failure EnsureResult × List Call :=
  match remote.searchErr with
  | some e => (.error (.failJson ("Could not get ldap: " ++ e)), [.searchLdap p.name])
  | none =>
    match resolveData p remote.orgLookup remote.locLookup with
    | (.error f, cs) => (.error f, fetchCalls p remote.record ++ cs)
    | (.ok data, cs) =>
      ((ensureDecide p remote remote.record data).1,
       fetchCalls p remote.record ++ cs ++ (ensureDecide p remote remote.record data).2)

/-- The `changed` field handed to `module.exit_json`: `ensure`'s return
value, which is a boolean in three branches and a (boolean, record) tuple in
the update branch. -/
inductive ChangedVal where
  | ofBool : Bool → ChangedVal
  | ofPair : Bool → AttrMap → ChangedVal
deriving DecidableEq, Repr

/-- Whether the reported `changed` value is a boolean. -/
def ChangedVal.isBool : ChangedVal → Bool
  | .ofBool _ => true
  | .ofPair _ _ => false

/-- How `ensure`'s return value lands in `exit_json(changed=...)`. -/
def toChangedVal : EnsureResult → ChangedVal
  | .changed => .ofBool true
  | .unchanged => .ofBool false
  | .changedPair rec => .ofPair true rec

/-- The result descriptor of `main`: `exit_json(changed=changed, name=...)`. -/
structure ExitJson where
  changed : ChangedVal
  name : String
deriving DecidableEq, Repr

/-- `main` (lines 259-260): run `ensure`, report its value as `changed`
together with the resource name. -/
def runModule (p : Params) (remote : Remote) : Except Failure ExitJson × List Call :=
  match ensure p remote with
  | (.ok res, cs) => (.ok ⟨toChangedVal res, p.name⟩, cs)
  | (.error f, cs) => (.error f, cs)

/-- Effect of one logged call on the stored record: create stores the sent
attribute set under a fresh id, update overlays the sent attribute set onto
the stored record, delete removes it, reads change nothing. -/
def applyCall (remote : Remote) (rec : Option AttrMap) : Call → Option AttrMap
  | .createLdap d => some (d.set "id" (.vint remote.freshId))
  | .updateLdap _ d => some (overlay (rec.getD []) d)
  | .deleteLdap _ => none
  | _ => rec

/-- The remote system after a run's calls have taken effect, with no
external change: lookup tables and error injections stay as they were. -/
def stepRemote (remote : Remote) (cs : List Call) : Remote :=
  { remote with record := cs.foldl (applyCall remote) remote.record }

/- Concrete sample inputs, used to evaluate the development on closed
instances. -/

/-- A lookup table with no entries. -/
def noLookup : String → LookupResult := fun _ => .notFound

/-- The spec of the module documentation's example: a present LDAP source
named `Test LDAP` at host 127.0.0.1, everything optional left unset. -/
def p1 : Params :=
  { name := "Test LDAP", state := "present", host := "127.0.0.1", port := 389,
    tls := false, base_dn := none, account := none, account_password := none,
    attr_login := none, attr_firstname := none, attr_lastname := none,
    attr_mail := none, attr_photo := none, onthefly_register := none,
    usergroup_sync := none, groups_base := none, server_type := none,
    ldap_filter := none, organizations := none, locations := none }

/-- Same spec with state absent. -/
def p1Absent : Params := { p1 with state := "absent" }

/-- A remote with no stored record and no injected errors. -/
def rem0 : Remote :=
  { record := none, orgLookup := noLookup, locLookup := noLookup,
    freshId := 7, searchErr := none, createErr := none, updateErr := none,
    deleteErr := none }

/-- A stored record matching `p1`'s working attribute set. -/
def storedRec : AttrMap :=
  [("id", .vint 7), ("name", .vstr "Test LDAP"),
   ("host", .vstr "127.0.0.1"), ("port", .vint 389)]

/-- A stored record whose host differs from `p1`'s. -/
def diffRec : AttrMap :=
  [("id", .vint 7), ("name", .vstr "Test LDAP"),
   ("host", .vstr "10.0.0.1"), ("port", .vint 389)]

/-- The remote holding `storedRec`. -/
def remStored : Remote := { rem0 with record := some storedRec }

/-- The remote holding `diffRec`. -/
def remDiff : Remote := { rem0 with record := some diffRec }

/-- A spec referencing one organization name. -/
def p5org : Params := { p1 with organizations := some ["BadOrg"] }

/-- A spec referencing one location name. -/
def p5loc : Params := { p1 with locations := some ["BadLoc"] }

/-- A remote whose organization lookup raises a ForemanError. -/
def rem5 : Remote :=
  { rem0 with orgLookup := fun _ => .remoteError "boom" }

/-- A remote whose location lookup raises a ForemanError. -/
def rem5loc : Remote :=
  { rem0 with locLookup := fun _ => .remoteError "boom" }

/-- A spec referencing one nonexistent organization name. -/
def p4 : Params := { p1 with organizations := some ["DoesNotExist"] }

/-- A spec referencing one nonexistent location name. -/
def p4loc : Params := { p1 with locations := some ["DoesNotExist"] }

/-- A spec with an explicit empty organization list. -/
def p6orgEmpty : Params := { p1 with organizations := some [] }

/-- A spec with an explicit empty location list. -/
def p6locEmpty : Params := { p1 with locations := some [] }

/-- A spec whose caller supplied `base_dn` as the empty string. -/
def p8 : Params := { p1 with base_dn := some "" }

/-- A spec whose caller supplied `account_password` as the empty string. -/
def p3cex : Params := { p1 with account_password := some "" }

/- Lemma toolkit about dictionaries and the build loop. -/

theorem get_set_self (m : AttrMap) (k : String) (v : Value) :
    (m.set k v).get k = some v := by
  induction m with
  | nil => simp [AttrMap.set, AttrMap.get]
  | cons kv rest ih =>
    obtain ⟨k0, w⟩ := kv
    by_cases h : k0 = k
    · simp [AttrMap.set, AttrMap.get, h]
    · simp [AttrMap.set, AttrMap.get, h, ih]

theorem get_set_ne (m : AttrMap) (k k' : String) (v : Value) (h : k' ≠ k) :
    (m.set k v).get k' = m.get k' := by
  have hne : k ≠ k' := Ne.symm h
  induction m with
  | nil => simp [AttrMap.set, AttrMap.get, hne]
  | cons kv rest ih =>
    obtain ⟨k0, w⟩ := kv
    by_cases h0 : k0 = k
    · subst h0
      simp [AttrMap.set, AttrMap.get, hne]
    · simp [AttrMap.set, AttrMap.get, h0, ih]

theorem get_eq_none_iff (m : AttrMap) (k : String) :
    m.get k = none ↔ k ∉ m.map Prod.fst := by
  induction m with
  | nil => simp [AttrMap.get]
  | cons kv rest ih =>
    obtain ⟨k0, w⟩ := kv
    by_cases h : k0 = k
    · subst h; simp [AttrMap.get]
    · have hk : k ≠ k0 := Ne.symm h
      simp [AttrMap.get, h, ih, hk]

theorem keys_set (m : AttrMap) (k : String) (v : Value) :
    (m.set k v).map Prod.fst =
      if m.contains k then m.map Prod.fst else m.map Prod.fst ++ [k] := by
  induction m with
  | nil => simp [AttrMap.set, AttrMap.contains, AttrMap.get]
  | cons kv rest ih =>
    obtain ⟨k0, w⟩ := kv
    by_cases h : k0 = k
    · subst h; simp [AttrMap.set, AttrMap.contains, AttrMap.get]
    · by_cases hc : (AttrMap.get rest k).isSome
      · simp [AttrMap.set, AttrMap.contains, AttrMap.get, h, ih, hc]
      · simp [AttrMap.set, AttrMap.contains, AttrMap.get, h, ih, hc]

theorem set_nodupKeys (m : AttrMap) (k : String) (v : Value)
    (h : NodupKeys m) : NodupKeys (m.set k v) := by
  unfold NodupKeys at h ⊢
  rw [keys_set]
  by_cases hc : m.contains k
  · simpa [hc] using h
  · have hk : k ∉ m.map Prod.fst := by
      rw [← get_eq_none_iff]
      unfold AttrMap.contains at hc
      simpa using hc
    simp [hc, List.nodup_append, h, hk]

theorem set_ne_nil (m : AttrMap) (k : String) (v : Value) :
    m.set k v ≠ [] := by
  cases m with
  | nil => simp [AttrMap.set]
  | cons kv rest =>
    obtain ⟨k0, w⟩ := kv
    by_cases h : k0 = k <;> simp [AttrMap.set, h]

theorem overlay_get_notmem (r d : AttrMap) (k : String)
    (h : d.get k = none) : (overlay r d).get k = r.get k := by
  induction d generalizing r with
  | nil => simp [overlay]
  | cons kv rest ih =>
    obtain ⟨k0, w⟩ := kv
    by_cases h0 : k0 = k
    · subst h0; simp [AttrMap.get] at h
    · simp only [AttrMap.get, h0, if_false] at h
      show AttrMap.get (overlay (r.set k0 w) rest) k = r.get k
      rw [ih (r.set k0 w) h, get_set_ne]
      exact fun hh => h0 hh.symm

theorem overlay_get_mem (r d : AttrMap) (k : String) (v : Value)
    (hd : NodupKeys d) (h : d.get k = some v) :
    (overlay r d).get k = some v := by
  induction d generalizing r with
  | nil => simp [AttrMap.get] at h
  | cons kv rest ih =>
    obtain ⟨k0, w⟩ := kv
    unfold NodupKeys at hd
    simp only [List.map_cons, List.nodup_cons] at hd
    by_cases h0 : k0 = k
    · subst h0
      have hw : w = v := by simpa [AttrMap.get] using h
      subst hw
      have hrest : AttrMap.get rest k0 = none :=
        (get_eq_none_iff rest k0).mpr hd.1
      show AttrMap.get (overlay (r.set k0 w) rest) k0 = some w
      rw [overlay_get_notmem _ _ _ hrest, get_set_self]
    · have h2 : AttrMap.get rest k = some v := by simpa [AttrMap.get, h0] using h
      show AttrMap.get (overlay (r.set k0 w) rest) k = some v
      exact ih (r.set k0 w) hd.2 h2

theorem overlay_ne_nil (r d : AttrMap) (h : r ≠ []) : overlay r d ≠ [] := by
  induction d generalizing r with
  | nil => exact h
  | cons kv rest ih =>
    obtain ⟨k0, w⟩ := kv
    exact ih (r.set k0 w) (set_ne_nil r k0 w)

theorem buildFold_get_notmem (p : Params) (ks : List String) (d : AttrMap)
    (k : String) (h : k ∉ ks) : (buildFold p ks d).get k = d.get k := by
  induction ks generalizing d with
  | nil => simp [buildFold]
  | cons k0 rest ih =>
    have hne : k ≠ k0 := fun hh => h (hh ▸ List.mem_cons_self k0 rest)
    have hrest : k ∉ rest := fun hh => h (List.mem_cons_of_mem _ hh)
    cases hp : p.get k0 with
    | none => simpa [buildFold, hp] using ih _ hrest
    | some v =>
      by_cases ht : v.truthy
      · simp only [buildFold, hp, ht, if_true]
        rw [ih _ hrest, get_set_ne _ _ _ _ hne]
      · simpa [buildFold, hp, ht] using ih d hrest

theorem buildFold_get_mem (p : Params) (ks : List String) (d : AttrMap)
    (k : String) (hnd : ks.Nodup) (hk : k ∈ ks) :
    (buildFold p ks d).get k =
      (match p.get k with
       | some v => if v.truthy then some v else d.get k
       | none => d.get k) := by
  induction ks generalizing d with
  | nil => simp at hk
  | cons k0 rest ih =>
    rw [List.nodup_cons] at hnd
    by_cases h0 : k = k0
    · subst h0
      have hrest : k ∉ rest := hnd.1
      cases hp : p.get k with
      | none => simp only [buildFold, hp]; rw [buildFold_get_notmem p rest _ k hrest]
      | some v =>
        by_cases ht : v.truthy
        · simp only [buildFold, hp, ht, if_true]
          rw [buildFold_get_notmem p rest _ k hrest, get_set_self]
        · simp only [buildFold, hp, ht, Bool.false_eq_true, if_false]
          rw [buildFold_get_notmem p rest _ k hrest]
    · have hkrest : k ∈ rest := by
        rcases List.mem_cons.mp hk with h | h
        · exact absurd h h0
        · exact h
      cases hp : p.get k0 with
      | none => simp only [buildFold, hp]; exact ih _ hnd.2 hkrest
      | some v =>
        by_cases ht : v.truthy
        · simp only [buildFold, hp, ht, if_true]
          rw [ih _ hnd.2 hkrest]
          have hne : k ≠ k0 := h0
          rw [get_set_ne _ _ _ _ hne]
        · simp only [buildFold, hp, ht, if_false]
          exact ih _ hnd.2 hkrest

theorem buildFold_nodup (p : Params) (ks : List String) (d : AttrMap)
    (h : NodupKeys d) : NodupKeys (buildFold p ks d) := by
  induction ks generalizing d with
  | nil => exact h
  | cons k0 rest ih =>
    cases hp : p.get k0 with
    | none => simpa [buildFold, hp] using ih d h
    | some v =>
      by_cases ht : v.truthy
      · simp only [buildFold, hp, ht, if_true]
        exact ih _ (set_nodupKeys d k0 v h)
      · simpa [buildFold, hp, ht] using ih d h

theorem buildFold_ne_nil (p : Params) (ks : List String) (d : AttrMap)
    (h : d ≠ []) : buildFold p ks d ≠ [] := by
  induction ks generalizing d with
  | nil => exact h
  | cons k0 rest ih =>
    cases hp : p.get k0 with
    | none => simpa [buildFold, hp] using ih d h
    | some v =>
      by_cases ht : v.truthy
      · simp only [buildFold, hp, ht, if_true]
        exact ih _ (set_ne_nil d k0 v)
      · simpa [buildFold, hp, ht] using ih d h

theorem buildData_nodup (p : Params) : NodupKeys (buildData p) :=
  buildFold_nodup p keys _ (by simp [NodupKeys])

theorem buildData_ne_nil (p : Params) : buildData p ≠ [] :=
  buildFold_ne_nil p keys _ (by simp)

theorem buildData_get_name (p : Params) :
    (buildData p).get "name" = some (.vstr p.name) := by
  unfold buildData
  rw [buildFold_get_notmem p keys _ "name" (by decide)]
  simp [AttrMap.get]

theorem buildData_get_other (p : Params) (k : String) (h1 : k ∉ keys)
    (h2 : k ≠ "name") : (buildData p).get k = none := by
  unfold buildData
  rw [buildFold_get_notmem p keys _ k h1]
  simp [AttrMap.get, Ne.symm h2]

theorem buildData_get_mem (p : Params) (k : String) (hk : k ∈ keys) :
    (buildData p).get k =
      (match p.get k with
       | some v => if v.truthy then some v else none
       | none => none) := by
  unfold buildData
  rw [buildFold_get_mem p keys _ k (by decide) hk]
  have hne : k ≠ "name" := by
    intro hh
    subst hh
    revert hk
    decide
  have : AttrMap.get [("name", Value.vstr p.name)] k = none := by
    simp [AttrMap.get, Ne.symm hne]
  rw [this]

theorem mutations_append (a b : List Call) :
    mutations (a ++ b) = mutations a ++ mutations b := by
  simp [mutations, List.filter_append]

theorem mutations_eq_nil (cs : List Call)
    (h : ∀ c ∈ cs, c.isMutating = false) : mutations cs = [] := by
  unfold mutations
  rw [List.filter_eq_nil_iff]
  intro c hc
  simp [h c hc]

theorem fetchCalls_nonmut (p : Params) (ldap : Option AttrMap) :
    ∀ c ∈ fetchCalls p ldap, c.isMutating = false := by
  intro c hc
  unfold fetchCalls at hc
  rcases List.mem_cons.mp hc with rfl | hc2
  · rfl
  · by_cases ht : pyTruthyDict ldap
    · simp only [ht, if_true, List.mem_singleton] at hc2
      subst hc2; rfl
    · simp [ht] at hc2

theorem get_org_ids_calls (L : String → LookupResult) (ns : List String) :
    ∀ c ∈ (get_organization_ids L ns).2, ∃ m, c = Call.searchOrg m := by
  induction ns with
  | nil => simp [get_organization_ids]
  | cons n rest ih =>
    intro c hc
    unfold get_organization_ids at hc
    cases hL : L n with
    | found i =>
      rw [hL] at hc
      simp only [List.mem_cons] at hc
      rcases hc with rfl | hc2
      · exact ⟨n, rfl⟩
      · exact ih c hc2
    | notFound =>
      rw [hL] at hc
      simp only [List.mem_singleton] at hc
      subst hc; exact ⟨n, rfl⟩
    | remoteError e =>
      rw [hL] at hc
      simp only [List.mem_singleton] at hc
      subst hc; exact ⟨n, rfl⟩

theorem get_loc_ids_calls (L : String → LookupResult) (ns : List String) :
    ∀ c ∈ (get_location_ids L ns).2, ∃ m, c = Call.searchLoc m := by
  induction ns with
  | nil => simp [get_location_ids]
  | cons n rest ih =>
    intro c hc
    unfold get_location_ids at hc
    cases hL : L n with
    | found i =>
      rw [hL] at hc
      simp only [List.mem_cons] at hc
      rcases hc with rfl | hc2
      · exact ⟨n, rfl⟩
      · exact ih c hc2
    | notFound =>
      rw [hL] at hc
      simp only [List.mem_singleton] at hc
      subst hc; exact ⟨n, rfl⟩
    | remoteError e =>
      rw [hL] at hc
      simp only [List.mem_singleton] at hc
      subst hc; exact ⟨n, rfl⟩

theorem resolveData_calls_nonmut (p : Params) (oL lL : String → LookupResult) :
    ∀ c ∈ (resolveData p oL lL).2, c.isMutating = false := by
  intro c hc
  unfold resolveData at hc
  cases ho : p.organizations with
  | none =>
    cases hl : p.locations with
    | none => simp [ho, hl] at hc
    | some lnames =>
      rcases hr : get_location_ids lL lnames with ⟨r, cs⟩
      cases r with
      | error f =>
        simp only [ho, hl, hr] at hc
        obtain ⟨m, rfl⟩ := get_loc_ids_calls lL lnames c (by rw [hr]; exact hc)
        rfl
      | ok ids =>
        simp only [ho, hl, hr] at hc
        obtain ⟨m, rfl⟩ := get_loc_ids_calls lL lnames c (by rw [hr]; exact hc)
        rfl
  | some onames =>
    rcases hr : get_organization_ids oL onames with ⟨r, cs⟩
    cases r with
    | error f =>
      simp only [ho, hr] at hc
      obtain ⟨m, rfl⟩ := get_org_ids_calls oL onames c (by rw [hr]; exact hc)
      rfl
    | ok oids =>
      cases hl : p.locations with
      | none =>
        simp only [ho, hl, hr] at hc
        obtain ⟨m, rfl⟩ := get_org_ids_calls oL onames c (by rw [hr]; exact hc)
        rfl
      | some lnames =>
        rcases hr2 : get_location_ids lL lnames with ⟨r2, cs2⟩
        cases r2 with
        | error f =>
          simp only [ho, hl, hr, hr2, List.mem_append] at hc
          rcases hc with hc | hc
          · obtain ⟨m, rfl⟩ := get_org_ids_calls oL onames c (by rw [hr]; exact hc)
            rfl
          · obtain ⟨m, rfl⟩ := get_loc_ids_calls lL lnames c (by rw [hr2]; exact hc)
            rfl
        | ok ids =>
          simp only [ho, hl, hr, hr2, List.mem_append] at hc
          rcases hc with hc | hc
          · obtain ⟨m, rfl⟩ := get_org_ids_calls oL onames c (by rw [hr]; exact hc)
            rfl
          · obtain ⟨m, rfl⟩ := get_loc_ids_calls lL lnames c (by rw [hr2]; exact hc)
            rfl

theorem foldl_applyCall_nonmut (remote : Remote) (cs : List Call)
    (acc : Option AttrMap) (h : ∀ c ∈ cs, c.isMutating = false) :
    cs.foldl (applyCall remote) acc = acc := by
  induction cs generalizing acc with
  | nil => rfl
  | cons c rest ih =>
    have hc := h c (List.mem_cons_self c rest)
    have hstep : applyCall remote acc c = acc := by
      cases c <;> simp_all [applyCall, Call.isMutating]
    rw [List.foldl_cons, hstep]
    exact ih _ (fun c2 h2 => h c2 (List.mem_cons_of_mem _ h2))

theorem stepRemote_searchErr (remote : Remote) (cs : List Call) :
    (stepRemote remote cs).searchErr = remote.searchErr := rfl

theorem stepRemote_orgLookup (remote : Remote) (cs : List Call) :
    (stepRemote remote cs).orgLookup = remote.orgLookup := rfl

theorem stepRemote_locLookup (remote : Remote) (cs : List Call) :
    (stepRemote remote cs).locLookup = remote.locLookup := rfl

theorem stepRemote_record (remote : Remote) (cs : List Call) :
    (stepRemote remote cs).record = cs.foldl (applyCall remote) remote.record := rfl

theorem eqAsSets_refl (l : List Int) : eqAsSets l l = true := by
  simp [eqAsSets, List.all_eq_true]

theorem ldaps_equal_of_agree (data rp : AttrMap)
    (h : ∀ k, data.contains k = true → rp.get k = data.get k) :
    ldaps_equal data rp cmp_keys = true := by
  have hany : (cmp_keys.any fun key =>
      data.contains key && (data.get key != rp.get key)) = false := by
    rw [List.any_eq_false]
    intro key hk
    by_cases hc : data.contains key = true
    · simp [hc, h key hc]
    · simp [Bool.eq_false_iff.mpr hc]
  have horg : organizations_equal data rp = true := by
    unfold organizations_equal
    cases hov : data.get "organization_ids" with
    | none => rfl
    | some v =>
      have hc : data.contains "organization_ids" = true := by
        simp [AttrMap.contains, hov]
      rw [h _ hc, hov]
      simp [idsOfOpt, eqAsSets_refl]
  have hloc : locations_equal data rp = true := by
    unfold locations_equal
    cases hov : data.get "location_ids" with
    | none => rfl
    | some v =>
      have hc : data.contains "location_ids" = true := by
        simp [AttrMap.contains, hov]
      rw [h _ hc, hov]
      simp [idsOfOpt, eqAsSets_refl]
  simp [ldaps_equal, hany, horg, hloc]

theorem list_any_congr {α : Type} (l : List α) (f g : α → Bool)
    (h : ∀ x ∈ l, f x = g x) : l.any f = l.any g := by
  induction l with
  | nil => rfl
  | cons a rest ih =>
    simp only [List.any_cons]
    rw [h a (List.mem_cons_self a rest),
        ih (fun x hx => h x (List.mem_cons_of_mem _ hx))]

theorem agree_set (d1 d2 : AttrMap) (bad K : String) (v : Value)
    (h : ∀ k, k ≠ bad → d1.get k = d2.get k) :
    ∀ k, k ≠ bad → (d1.set K v).get k = (d2.set K v).get k := by
  intro k hk
  by_cases hkK : k = K
  · subst hkK; rw [get_set_self, get_set_self]
  · rw [get_set_ne _ _ _ _ hkK, get_set_ne _ _ _ _ hkK]
    exact h k hk

theorem resolveData_ok_shape (p : Params) (oL lL : String → LookupResult)
    (data : AttrMap) (cs : List Call)
    (h : resolveData p oL lL = (.ok data, cs)) :
    data = buildData p
    ∨ (∃ ids, data = (buildData p).set "location_ids" (.vids ids))
    ∨ (∃ oids, data = (buildData p).set "organization_ids" (.vids oids))
    ∨ (∃ oids ids,
        data = ((buildData p).set "organization_ids" (.vids oids)).set
                 "location_ids" (.vids ids)) := by
  unfold resolveData at h
  cases ho : p.organizations with
  | none =>
    cases hl : p.locations with
    | none =>
      simp only [ho, hl, Prod.mk.injEq, Except.ok.injEq] at h
      exact Or.inl h.1.symm
    | some lnames =>
      rcases hr : get_location_ids lL lnames with ⟨r, rcs⟩
      cases r with
      | error f => simp [ho, hl, hr] at h
      | ok ids =>
        simp only [ho, hl, hr, Prod.mk.injEq, Except.ok.injEq] at h
        exact Or.inr (Or.inl ⟨ids, h.1.symm⟩)
  | some onames =>
    rcases hr : get_organization_ids oL onames with ⟨r, rcs⟩
    cases r with
    | error f => simp [ho, hr] at h
    | ok oids =>
      cases hl : p.locations with
      | none =>
        simp only [ho, hl, hr, Prod.mk.injEq, Except.ok.injEq] at h
        exact Or.inr (Or.inr (Or.inl ⟨oids, h.1.symm⟩))
      | some lnames =>
        rcases hr2 : get_location_ids lL lnames with ⟨r2, rcs2⟩
        cases r2 with
        | error f => simp [ho, hl, hr, hr2] at h
        | ok ids =>
          simp only [ho, hl, hr, hr2, Prod.mk.injEq, Except.ok.injEq] at h
          exact Or.inr (Or.inr (Or.inr ⟨oids, ids, h.1.symm⟩))

theorem resolveData_ok_get_id (p : Params) (oL lL : String → LookupResult)
    (data : AttrMap) (cs : List Call)
    (h : resolveData p oL lL = (.ok data, cs)) : data.get "id" = none := by
  rcases resolveData_ok_shape p oL lL data cs h with
    rfl | ⟨ids, rfl⟩ | ⟨oids, rfl⟩ | ⟨oids, ids, rfl⟩
  · exact buildData_get_other p "id" (by decide) (by decide)
  · rw [get_set_ne _ _ _ _ (by decide)]
    exact buildData_get_other p "id" (by decide) (by decide)
  · rw [get_set_ne _ _ _ _ (by decide)]
    exact buildData_get_other p "id" (by decide) (by decide)
  · rw [get_set_ne _ _ _ _ (by decide), get_set_ne _ _ _ _ (by decide)]
    exact buildData_get_other p "id" (by decide) (by decide)

theorem resolveData_ok_nodup (p : Params) (oL lL : String → LookupResult)
    (data : AttrMap) (cs : List Call)
    (h : resolveData p oL lL = (.ok data, cs)) : NodupKeys data := by
  rcases resolveData_ok_shape p oL lL data cs h with
    rfl | ⟨ids, rfl⟩ | ⟨oids, rfl⟩ | ⟨oids, ids, rfl⟩
  · exact buildData_nodup p
  · exact set_nodupKeys _ _ _ (buildData_nodup p)
  · exact set_nodupKeys _ _ _ (buildData_nodup p)
  · exact set_nodupKeys _ _ _ (set_nodupKeys _ _ _ (buildData_nodup p))

theorem resolveData_ok_ne_nil (p : Params) (oL lL : String → LookupResult)
    (data : AttrMap) (cs : List Call)
    (h : resolveData p oL lL = (.ok data, cs)) : data ≠ [] := by
  rcases resolveData_ok_shape p oL lL data cs h with
    rfl | ⟨ids, rfl⟩ | ⟨oids, rfl⟩ | ⟨oids, ids, rfl⟩
  · exact buildData_ne_nil p
  · exact set_ne_nil _ _ _
  · exact set_ne_nil _ _ _
  · exact set_ne_nil _ _ _

theorem agree_set_id (data : AttrMap) (hid : data.get "id" = none) (v : Value) :
    ∀ k, data.contains k = true → (data.set "id" v).get k = data.get k := by
  intro k hk
  by_cases hkid : k = "id"
  · subst hkid
    rw [AttrMap.contains, hid] at hk
    simp at hk
  · exact get_set_ne data "id" k v hkid

theorem agree_overlay (r data : AttrMap) (hnd : NodupKeys data) :
    ∀ k, data.contains k = true → (overlay r data).get k = data.get k := by
  intro k hk
  rw [AttrMap.contains] at hk
  cases hv : data.get k with
  | none => rw [hv] at hk; simp at hk
  | some v => exact overlay_get_mem r data k v hnd hv

theorem pyTruthyDict_some (r : AttrMap) (h : r ≠ []) :
    pyTruthyDict (some r) = true := by
  cases r with
  | nil => exact absurd rfl h
  | cons kv rest => rfl

theorem ensure_unchanged_of_equal (p : Params) (remote : Remote)
    (r data : AttrMap) (rcs : List Call)
    (hs : remote.searchErr = none)
    (hrec : remote.record = some r) (hne : r ≠ [])
    (hres : resolveData p remote.orgLookup remote.locLookup = (.ok data, rcs))
    (hstate : p.state ≠ "absent")
    (heq : ldaps_equal data r cmp_keys = true) :
    (ensure p remote).1 = .ok .unchanged := by
  have htr : pyTruthyDict (some r) = true := pyTruthyDict_some r hne
  have hsb : (p.state == "absent") = false := by
    simp [beq_eq_false_iff_ne, hstate]
  simp only [ensure, hs, hres, hrec]
  simp only [ensureDecide, htr, hsb, heq, Option.getD_some, Bool.not_true,
    Bool.false_and, Bool.false_eq_true, if_false, if_true, Bool.not_false]

theorem any_diff_iff (D R : AttrMap) (K : List String) :
    (K.any fun key => D.contains key && (D.get key != R.get key)) = true
      ↔ ∃ k, k ∈ K ∧ D.contains k = true ∧ D.get k ≠ R.get k := by
  rw [List.any_eq_true]
  constructor
  · rintro ⟨k, hk, hp⟩
    rw [Bool.and_eq_true] at hp
    exact ⟨k, hk, hp.1, by simpa using hp.2⟩
  · rintro ⟨k, hk, hc, hne⟩
    exact ⟨k, hk, by simp [hc, bne_iff_ne, hne]⟩

theorem org_equal_false_iff (D R : AttrMap) :
    organizations_equal D R = false
      ↔ ∃ v, D.get "organization_ids" = some v
          ∧ eqAsSets (idsOf v) (idsOfOpt (R.get "organization_ids")) = false := by
  unfold organizations_equal
  cases hov : D.get "organization_ids" with
  | none => simp
  | some v => simp

theorem loc_equal_false_iff (D R : AttrMap) :
    locations_equal D R = false
      ↔ ∃ v, D.get "location_ids" = some v
          ∧ eqAsSets (idsOf v) (idsOfOpt (R.get "location_ids")) = false := by
  unfold locations_equal
  cases hov : D.get "location_ids" with
  | none => simp
  | some v => simp

/-- C2: the comparator is false exactly when some comparison key present in
the desired overlay differs, or the desired organization-identifier set
differs as a set from the current one, or the desired location-identifier
set does; keys absent from the overlay are never compared — in particular
on the overlay with only a name against a record that also carries a host,
compared on the host key, it is true. -/
theorem claim_C2_comparator_characterization :
    (∀ (D R : AttrMap) (K : List String),
       ldaps_equal D R K = false ↔
         ((∃ k, k ∈ K ∧ D.contains k = true ∧ D.get k ≠ R.get k)
          ∨ (∃ v, D.get "organization_ids" = some v
               ∧ eqAsSets (idsOf v) (idsOfOpt (R.get "organization_ids")) = false)
          ∨ (∃ v, D.get "location_ids" = some v
               ∧ eqAsSets (idsOf v) (idsOfOpt (R.get "location_ids")) = false)))
    ∧ ldaps_equal [("name", .vstr "x")]
        [("name", .vstr "x"), ("host", .vstr "h")] ["host"] = true := by
  constructor
  · intro D R K
    rw [← any_diff_iff D R K, ← org_equal_false_iff D R, ← loc_equal_false_iff D R]
    unfold ldaps_equal
    cases hany : (K.any fun key => D.contains key && (D.get key != R.get key)) <;>
      cases horg : organizations_equal D R <;>
        cases hloc : locations_equal D R <;>
          simp [hany, horg, hloc]
  · rfl

/-- C1: the reconcile decision table: with the record fetch and the
association resolution successful, (no record, present) issues exactly one
create carrying the working attribute set and returns True; (no record,
absent) issues no mutating call and returns False; (record, absent) issues
exactly one delete by id and returns True; (record, present, comparator
equal) issues no mutating call and returns False; (record, present,
comparator not equal) issues exactly one update by id with the working
attribute set and returns the truthy (True, record) pair. -/
theorem claim_C1_decision_table (p : Params) (remote : Remote)
    (data : AttrMap) (rcs : List Call)
    (hs : remote.searchErr = none)
    (hres : resolveData p remote.orgLookup remote.locLookup = (.ok data, rcs)) :
    (remote.record = none → p.state = "present" → remote.createErr = none →
       mutations (ensure p remote).2 = [.createLdap data]
       ∧ (ensure p remote).1 = .ok .changed)
    ∧ (remote.record = none → p.state = "absent" →
       mutations (ensure p remote).2 = []
       ∧ (ensure p remote).1 = .ok .unchanged)
    ∧ (∀ r, remote.record = some r → r ≠ [] → p.state = "absent" →
       remote.deleteErr = none →
       mutations (ensure p remote).2 = [.deleteLdap (r.get "id")]
       ∧ (ensure p remote).1 = .ok .changed)
    ∧ (∀ r, remote.record = some r → r ≠ [] → p.state = "present" →
       ldaps_equal data r cmp_keys = true →
       mutations (ensure p remote).2 = []
       ∧ (ensure p remote).1 = .ok .unchanged)
    ∧ (∀ r, remote.record = some r → r ≠ [] → p.state = "present" →
       ldaps_equal data r cmp_keys = false → remote.updateErr = none →
       mutations (ensure p remote).2 = [.updateLdap (r.get "id") data]
       ∧ (ensure p remote).1 = .ok (.changedPair (overlay r data))) := by
  have hrun : ensure p remote
      = ((ensureDecide p remote remote.record data).1,
         fetchCalls p remote.record ++ rcs
           ++ (ensureDecide p remote remote.record data).2) := by
    simp [ensure, hs, hres]
  have hfetch := fetchCalls_nonmut p remote.record
  have hrcs : ∀ c ∈ rcs, c.isMutating = false := by
    intro c hc
    exact resolveData_calls_nonmut p remote.orgLookup remote.locLookup c
      (by rw [hres]; exact hc)
  have hmut : ∀ mcs : List Call,
      mutations (fetchCalls p remote.record ++ rcs ++ mcs) = mutations mcs := by
    intro mcs
    rw [mutations_append, mutations_append, mutations_eq_nil _ hfetch,
      mutations_eq_nil _ hrcs]
    simp
  have hb1 : (("absent" : String) == "present") = false := by decide
  have hb2 : (("absent" : String) == "absent") = true := by decide
  have hb3 : (("present" : String) == "present") = true := by decide
  have hb4 : (("present" : String) == "absent") = false := by decide
  refine ⟨?_, ?_, ?_, ?_, ?_⟩
  · intro hrec hst hce
    have hdd : ensureDecide p remote remote.record data
        = (.ok .changed, [.createLdap data]) := by
      simp [ensureDecide, hrec, pyTruthyDict, hst, hb3, hce]
    have hCS : (ensure p remote).2
        = fetchCalls p remote.record ++ rcs ++ [.createLdap data] := by
      rw [hrun, hdd]
    have hR : (ensure p remote).1 = .ok .changed := by rw [hrun, hdd]
    refine ⟨?_, hR⟩
    rw [hCS, hmut]
    simp [mutations, Call.isMutating]
  · intro hrec hst
    have hdd : ensureDecide p remote remote.record data = (.ok .unchanged, []) := by
      simp [ensureDecide, hrec, pyTruthyDict, hst, hb1, hb2]
    have hCS : (ensure p remote).2
        = fetchCalls p remote.record ++ rcs ++ [] := by
      rw [hrun, hdd]
    have hR : (ensure p remote).1 = .ok .unchanged := by rw [hrun, hdd]
    refine ⟨?_, hR⟩
    rw [hCS, hmut]
    rfl
  · intro r hrec hrne hst hde
    have hdd : ensureDecide p remote remote.record data
        = (.ok .changed, [.deleteLdap (r.get "id")]) := by
      simp [ensureDecide, hrec, pyTruthyDict_some r hrne, hst, hb1, hb2, hde]
    have hCS : (ensure p remote).2
        = fetchCalls p remote.record ++ rcs ++ [.deleteLdap (r.get "id")] := by
      rw [hrun, hdd]
    have hR : (ensure p remote).1 = .ok .changed := by rw [hrun, hdd]
    refine ⟨?_, hR⟩
    rw [hCS, hmut]
    simp [mutations, Call.isMutating]
  · intro r hrec hrne hst heq
    have hdd : ensureDecide p remote remote.record data = (.ok .unchanged, []) := by
      simp [ensureDecide, hrec, pyTruthyDict_some r hrne, hst, hb3, hb4, heq]
    have hCS : (ensure p remote).2
        = fetchCalls p remote.record ++ rcs ++ [] := by
      rw [hrun, hdd]
    have hR : (ensure p remote).1 = .ok .unchanged := by rw [hrun, hdd]
    refine ⟨?_, hR⟩
    rw [hCS, hmut]
    rfl
  · intro r hrec hrne hst heq hue
    have hdd : ensureDecide p remote remote.record data
        = (.ok (.changedPair (overlay r data)), [.updateLdap (r.get "id") data]) := by
      simp [ensureDecide, hrec, pyTruthyDict_some r hrne, hst, hb3, hb4, heq, hue]
    have hCS : (ensure p remote).2
        = fetchCalls p remote.record ++ rcs ++ [.updateLdap (r.get "id") data] := by
      rw [hrun, hdd]
    have hR : (ensure p remote).1 = .ok (.changedPair (overlay r data)) := by
      rw [hrun, hdd]
    refine ⟨?_, hR⟩
    rw [hCS, hmut]
    simp [mutations, Call.isMutating]

/-- C1 witness: the theorem evaluated across the five branches with the
example spec, on concrete remotes. -/
theorem claim_C1_decision_table_witness :
    (mutations (ensure p1 rem0).2 = [.createLdap (buildData p1)]
       ∧ (ensure p1 rem0).1 = .ok .changed)
    ∧ (mutations (ensure p1Absent rem0).2 = []
       ∧ (ensure p1Absent rem0).1 = .ok .unchanged)
    ∧ (mutations (ensure p1Absent remStored).2 = [.deleteLdap (storedRec.get "id")]
       ∧ (ensure p1Absent remStored).1 = .ok .changed)
    ∧ (mutations (ensure p1 remStored).2 = []
       ∧ (ensure p1 remStored).1 = .ok .unchanged)
    ∧ (mutations (ensure p1 remDiff).2 = [.updateLdap (diffRec.get "id") (buildData p1)]
       ∧ (ensure p1 remDiff).1 = .ok (.changedPair (overlay diffRec (buildData p1)))) := by
  refine ⟨?_, ?_, ?_, ?_, ?_⟩
  · exact (claim_C1_decision_table p1 rem0 (buildData p1) [] rfl rfl).1 rfl rfl rfl
  · exact (claim_C1_decision_table p1Absent rem0 (buildData p1Absent) [] rfl rfl).2.1
      rfl rfl
  · exact (claim_C1_decision_table p1Absent remStored (buildData p1Absent) [] rfl
      rfl).2.2.1 storedRec rfl (by decide) rfl rfl
  · exact (claim_C1_decision_table p1 remStored (buildData p1) [] rfl
      rfl).2.2.2.1 storedRec rfl (by decide) rfl (by decide)
  · exact (claim_C1_decision_table p1 remDiff (buildData p1) [] rfl
      rfl).2.2.2.2 diffRec rfl (by decide) rfl (by decide) rfl

/-- C7: for every spec and remote, if one reconcile run succeeds, running it
again on the remote state its calls left behind — with no external change to
lookup tables or stored record in between — reports changed=false. -/
theorem claim_C7_idempotent (p : Params) (remote : Remote) (res : EnsureResult)
    (h1 : (ensure p remote).1 = .ok res) :
    (ensure p (stepRemote remote (ensure p remote).2)).1 = .ok .unchanged := by
  cases hs : remote.searchErr with
  | some e => simp [ensure, hs] at h1
  | none =>
  rcases hres : resolveData p remote.orgLookup remote.locLookup with ⟨resv, rcs⟩
  cases resv with
  | error f => simp [ensure, hs, hres] at h1
  | ok data =>
  have hrun : ensure p remote
      = ((ensureDecide p remote remote.record data).1,
         fetchCalls p remote.record ++ rcs
           ++ (ensureDecide p remote remote.record data).2) := by
    simp [ensure, hs, hres]
  replace h1 : (ensureDecide p remote remote.record data).1 = .ok res := by
    rw [hrun] at h1; exact h1
  have hfetch := fetchCalls_nonmut p remote.record
  have hrcs : ∀ c ∈ rcs, c.isMutating = false := by
    intro c hc
    exact resolveData_calls_nonmut p remote.orgLookup remote.locLookup c
      (by rw [hres]; exact hc)
  by_cases ht : pyTruthyDict remote.record = true
  · -- a truthy record exists
    obtain ⟨r, hrec⟩ : ∃ r, remote.record = some r := by
      cases hrecc : remote.record with
      | none => rw [hrecc] at ht; simp [pyTruthyDict] at ht
      | some r => exact ⟨r, rfl⟩
    have hrne : r ≠ [] := by
      intro hnil
      rw [hrec, hnil] at ht
      simp [pyTruthyDict] at ht
    by_cases habs : (p.state == "absent") = true
    · -- delete branch
      cases hde : remote.deleteErr with
      | some e => simp [ensureDecide, hrec, pyTruthyDict_some r hrne, habs, hde] at h1
      | none =>
        have hdd : ensureDecide p remote remote.record data
            = (.ok .changed, [.deleteLdap (r.get "id")]) := by
          simp [ensureDecide, hrec, pyTruthyDict_some r hrne, habs, hde]
        have hCS : (ensure p remote).2
            = fetchCalls p remote.record ++ rcs ++ [.deleteLdap (r.get "id")] := by
          rw [hrun, hdd]
        rw [hCS]
        have hrec2 : (stepRemote remote
            (fetchCalls p remote.record ++ rcs ++ [.deleteLdap (r.get "id")])).record
            = none := by
          rw [stepRemote_record, List.foldl_append, List.foldl_append,
            foldl_applyCall_nonmut remote _ _ hfetch,
            foldl_applyCall_nonmut remote _ _ hrcs]
          rfl
        have hst : p.state = "absent" := by simpa using habs
        simp only [ensure, stepRemote_searchErr, hs, stepRemote_orgLookup,
          stepRemote_locLookup, hres, hrec2]
        simp [ensureDecide, pyTruthyDict, hst]
    · -- state is not absent: compare
      have habs2 : (p.state == "absent") = false := by
        simpa using habs
      have hstate : p.state ≠ "absent" := beq_eq_false_iff_ne.mp habs2
      by_cases heq : ldaps_equal data r cmp_keys = true
      · -- comparator says equal: no-op
        have hdd : ensureDecide p remote remote.record data = (.ok .unchanged, []) := by
          simp [ensureDecide, hrec, pyTruthyDict_some r hrne, habs2, heq]
        have hCS : (ensure p remote).2
            = fetchCalls p remote.record ++ rcs ++ [] := by
          rw [hrun, hdd]
        rw [hCS]
        have hrec2 : (stepRemote remote
            (fetchCalls p remote.record ++ rcs ++ [])).record = some r := by
          rw [stepRemote_record, List.foldl_append, List.foldl_append,
            foldl_applyCall_nonmut remote _ _ hfetch,
            foldl_applyCall_nonmut remote _ _ hrcs]
          rw [List.foldl_nil, hrec]
        exact ensure_unchanged_of_equal p _ r data rcs
          (by rw [stepRemote_searchErr]; exact hs) hrec2 hrne
          (by rw [stepRemote_orgLookup, stepRemote_locLookup]; exact hres)
          hstate heq
      · -- comparator says not equal: update, then equal on re-run
        have heqf : ldaps_equal data r cmp_keys = false :=
          Bool.eq_false_iff.mpr heq
        cases hue : remote.updateErr with
        | some e =>
          simp [ensureDecide, hrec, pyTruthyDict_some r hrne, habs2, heqf, hue] at h1
        | none =>
          have hdd : ensureDecide p remote remote.record data
              = (.ok (.changedPair (overlay r data)),
                 [.updateLdap (r.get "id") data]) := by
            simp [ensureDecide, hrec, pyTruthyDict_some r hrne, habs2, heqf, hue]
          have hCS : (ensure p remote).2
              = fetchCalls p remote.record ++ rcs
                  ++ [.updateLdap (r.get "id") data] := by
            rw [hrun, hdd]
          rw [hCS]
          have hrec2 : (stepRemote remote
              (fetchCalls p remote.record ++ rcs
                ++ [.updateLdap (r.get "id") data])).record
              = some (overlay r data) := by
            rw [stepRemote_record, List.foldl_append, List.foldl_append,
              foldl_applyCall_nonmut remote _ _ hfetch,
              foldl_applyCall_nonmut remote _ _ hrcs]
            rw [hrec]
            rfl
          have hnd := resolveData_ok_nodup p remote.orgLookup remote.locLookup
            data rcs hres
          exact ensure_unchanged_of_equal p _ (overlay r data) data rcs
            (by rw [stepRemote_searchErr]; exact hs) hrec2
            (overlay_ne_nil r data hrne)
            (by rw [stepRemote_orgLookup, stepRemote_locLookup]; exact hres)
            hstate
            (ldaps_equal_of_agree data _ (agree_overlay r data hnd))
  · -- no truthy record
    have htf : pyTruthyDict remote.record = false := Bool.eq_false_iff.mpr ht
    by_cases hpres : (p.state == "present") = true
    · -- create branch
      cases hce : remote.createErr with
      | some e => simp [ensureDecide, htf, hpres, hce] at h1
      | none =>
        have hdd : ensureDecide p remote remote.record data
            = (.ok .changed, [.createLdap data]) := by
          simp [ensureDecide, htf, hpres, hce]
        have hCS : (ensure p remote).2
            = fetchCalls p remote.record ++ rcs ++ [.createLdap data] := by
          rw [hrun, hdd]
        rw [hCS]
        have hrec2 : (stepRemote remote
            (fetchCalls p remote.record ++ rcs ++ [.createLdap data])).record
            = some (data.set "id" (.vint remote.freshId)) := by
          rw [stepRemote_record, List.foldl_append, List.foldl_append,
            foldl_applyCall_nonmut remote _ _ hfetch,
            foldl_applyCall_nonmut remote _ _ hrcs]
          rfl
        have hid := resolveData_ok_get_id p remote.orgLookup remote.locLookup
          data rcs hres
        have hst : p.state = "present" := by simpa using hpres
        exact ensure_unchanged_of_equal p _ (data.set "id" (.vint remote.freshId))
          data rcs
          (by rw [stepRemote_searchErr]; exact hs) hrec2
          (set_ne_nil data "id" _)
          (by rw [stepRemote_orgLookup, stepRemote_locLookup]; exact hres)
          (by rw [hst]; decide)
          (ldaps_equal_of_agree data _ (agree_set_id data hid _))
    · -- neither create nor a record: no-op twice
      have hpf : (p.state == "present") = false := by simpa using hpres
      have hdd : ensureDecide p remote remote.record data = (.ok .unchanged, []) := by
        simp [ensureDecide, htf, hpf]
      have hCS : (ensure p remote).2
          = fetchCalls p remote.record ++ rcs ++ [] := by
        rw [hrun, hdd]
      rw [hCS]
      have hrec2 : (stepRemote remote
          (fetchCalls p remote.record ++ rcs ++ [])).record = remote.record := by
        rw [stepRemote_record, List.foldl_append, List.foldl_append,
          foldl_applyCall_nonmut remote _ _ hfetch,
          foldl_applyCall_nonmut remote _ _ hrcs]
        rw [List.foldl_nil]
      simp only [ensure, stepRemote_searchErr, hs, stepRemote_orgLookup,
        stepRemote_locLookup, hres, hrec2]
      simp [ensureDecide, htf, hpf]

/-- C7 witness: the example spec creates on the first run and reports no
change on the second. -/
theorem claim_C7_idempotent_witness :
    (ensure p1 rem0).1 = .ok .changed
    ∧ (ensure p1 (stepRemote rem0 (ensure p1 rem0).2)).1 = .ok .unchanged :=
  ⟨rfl, claim_C7_idempotent p1 rem0 .changed rfl⟩

theorem get_org_ids_notFound (L : String → LookupResult) (pre : List String)
    (n : String) (post : List String)
    (hpre : ∀ m ∈ pre, ∃ i, L m = .found i) (hn : L n = .notFound) :
    get_organization_ids L (pre ++ n :: post)
      = (.error (.failJson ("Could not find Organization " ++ n)),
         (pre ++ [n]).map .searchOrg) := by
  induction pre with
  | nil =>
    simp only [List.nil_append, List.map_cons, List.map_nil]
    unfold get_organization_ids
    simp only [hn]
  | cons m pre2 ih =>
    obtain ⟨i, hi⟩ := hpre m (List.mem_cons_self _ _)
    have ih2 := ih (fun x hx => hpre x (List.mem_cons_of_mem _ hx))
    simp only [List.cons_append, List.map_cons]
    unfold get_organization_ids
    simp only [hi, ih2, Except.map]

theorem get_loc_ids_notFound (L : String → LookupResult) (pre : List String)
    (n : String) (post : List String)
    (hpre : ∀ m ∈ pre, ∃ i, L m = .found i) (hn : L n = .notFound) :
    get_location_ids L (pre ++ n :: post)
      = (.error (.failJson ("Could not find Location " ++ n)),
         (pre ++ [n]).map .searchLoc) := by
  induction pre with
  | nil =>
    simp only [List.nil_append, List.map_cons, List.map_nil]
    unfold get_location_ids
    simp only [hn]
  | cons m pre2 ih =>
    obtain ⟨i, hi⟩ := hpre m (List.mem_cons_self _ _)
    have ih2 := ih (fun x hx => hpre x (List.mem_cons_of_mem _ hx))
    simp only [List.cons_append, List.map_cons]
    unfold get_location_ids
    simp only [hi, ih2, Except.map]

/-- C4: a nonexistent organization (location) name makes the whole run fail
with the `Could not find Organization` (`Could not find Location`) message
naming it, with zero mutating calls issued and with organization (location)
searches performed only up to and including the failing name. -/
theorem claim_C4_unresolvable_name (p : Params) (remote : Remote)
    (pre post : List String) (n : String)
    (hs : remote.searchErr = none) :
    (p.organizations = some (pre ++ n :: post) →
       (∀ m ∈ pre, ∃ i, remote.orgLookup m = .found i) →
       remote.orgLookup n = .notFound →
       (ensure p remote).1 = .error (.failJson ("Could not find Organization " ++ n))
       ∧ mutations (ensure p remote).2 = []
       ∧ (ensure p remote).2.filter Call.isOrgSearch
           = (pre ++ [n]).map Call.searchOrg)
    ∧ (p.organizations = none → p.locations = some (pre ++ n :: post) →
       (∀ m ∈ pre, ∃ i, remote.locLookup m = .found i) →
       remote.locLookup n = .notFound →
       (ensure p remote).1 = .error (.failJson ("Could not find Location " ++ n))
       ∧ mutations (ensure p remote).2 = []
       ∧ (ensure p remote).2.filter Call.isLocSearch
           = (pre ++ [n]).map Call.searchLoc) := by
  constructor
  · intro horg hpre hn
    have hids := get_org_ids_notFound remote.orgLookup pre n post hpre hn
    have hresolve : resolveData p remote.orgLookup remote.locLookup
        = (.error (.failJson ("Could not find Organization " ++ n)),
           (pre ++ [n]).map Call.searchOrg) := by
      unfold resolveData
      simp only [horg, hids]
    have hrun : ensure p remote
        = (.error (.failJson ("Could not find Organization " ++ n)),
           fetchCalls p remote.record ++ (pre ++ [n]).map Call.searchOrg) := by
      simp [ensure, hs, hresolve]
    rw [hrun]
    refine ⟨rfl, ?_, ?_⟩
    · rw [mutations_append, mutations_eq_nil _ (fetchCalls_nonmut p remote.record),
        mutations_eq_nil]
      · rfl
      · intro c hc
        obtain ⟨m, hm, rfl⟩ := List.mem_map.mp hc
        rfl
    · have hfe : (fetchCalls p remote.record).filter Call.isOrgSearch = [] := by
        unfold fetchCalls
        by_cases ht : pyTruthyDict remote.record <;>
          simp [ht, Call.isOrgSearch, List.filter]
      rw [List.filter_append, hfe, List.nil_append, List.filter_eq_self]
      intro c hc
      obtain ⟨m, hm, rfl⟩ := List.mem_map.mp hc
      rfl
  · intro horg hloc hpre hn
    have hids := get_loc_ids_notFound remote.locLookup pre n post hpre hn
    have hresolve : resolveData p remote.orgLookup remote.locLookup
        = (.error (.failJson ("Could not find Location " ++ n)),
           (pre ++ [n]).map Call.searchLoc) := by
      unfold resolveData
      simp only [horg, hloc, hids]
    have hrun : ensure p remote
        = (.error (.failJson ("Could not find Location " ++ n)),
           fetchCalls p remote.record ++ (pre ++ [n]).map Call.searchLoc) := by
      simp [ensure, hs, hresolve]
    rw [hrun]
    refine ⟨rfl, ?_, ?_⟩
    · rw [mutations_append, mutations_eq_nil _ (fetchCalls_nonmut p remote.record),
        mutations_eq_nil]
      · rfl
      · intro c hc
        obtain ⟨m, hm, rfl⟩ := List.mem_map.mp hc
        rfl
    · have hfe : (fetchCalls p remote.record).filter Call.isLocSearch = [] := by
        unfold fetchCalls
        by_cases ht : pyTruthyDict remote.record <;>
          simp [ht, Call.isLocSearch, List.filter]
      rw [List.filter_append, hfe, List.nil_append, List.filter_eq_self]
      intro c hc
      obtain ⟨m, hm, rfl⟩ := List.mem_map.mp hc
      rfl

/-- C4 witness: the spec scenario, resolving organizations=[DoesNotExist]
(and, mirrored, locations=[DoesNotExist]) against a remote with no
organizations or locations. -/
theorem claim_C4_unresolvable_name_witness :
    ((ensure p4 rem0).1
       = .error (.failJson ("Could not find Organization " ++ "DoesNotExist"))
     ∧ mutations (ensure p4 rem0).2 = []
     ∧ (ensure p4 rem0).2.filter Call.isOrgSearch
         = ([] ++ ["DoesNotExist"]).map Call.searchOrg)
    ∧ ((ensure p4loc rem0).1
       = .error (.failJson ("Could not find Location " ++ "DoesNotExist"))
     ∧ mutations (ensure p4loc rem0).2 = []
     ∧ (ensure p4loc rem0).2.filter Call.isLocSearch
         = ([] ++ ["DoesNotExist"]).map Call.searchLoc) :=
  ⟨(claim_C4_unresolvable_name p4 rem0 [] [] "DoesNotExist" rfl).1 rfl
     (by intro m hm; simp at hm) rfl,
   (claim_C4_unresolvable_name p4loc rem0 [] [] "DoesNotExist" rfl).2 rfl rfl
     (by intro m hm; simp at hm) rfl⟩

/-- C5: on a ForemanError from the organization lookup the run dies with a
NameError on the undefined name `locations` — the intended failure message
carrying the kind and the remote error is never produced — while the
location path does fail with the message carrying the kind and the remote
error verbatim. -/
theorem claim_C5_remote_error_paths :
    (ensure p5org rem5).1 = .error (.nameError "locations")
    ∧ (ensure p5loc rem5loc).1
        = .error (.failJson
            ("Search for Location '" ++ "BadLoc" ++ "' throws an Error: " ++ "boom")) := by
  constructor
  · rfl
  · rfl

/-- C6: an explicit empty organization (location) list puts
`organization_ids` (`location_ids`) into the working attribute set as the
empty identifier list; an unset field leaves the key out of the working
attribute set entirely. -/
theorem claim_C6_empty_vs_absent (p : Params) (oL lL : String → LookupResult) :
    (p.organizations = some [] → p.locations = none →
       resolveData p oL lL
         = (.ok ((buildData p).set "organization_ids" (.vids [])), [])
       ∧ AttrMap.get ((buildData p).set "organization_ids" (.vids []))
           "organization_ids" = some (.vids []))
    ∧ (p.locations = some [] → p.organizations = none →
       resolveData p oL lL
         = (.ok ((buildData p).set "location_ids" (.vids [])), [])
       ∧ AttrMap.get ((buildData p).set "location_ids" (.vids []))
           "location_ids" = some (.vids []))
    ∧ (p.organizations = none → p.locations = none →
       resolveData p oL lL = (.ok (buildData p), [])
       ∧ (buildData p).contains "organization_ids" = false
       ∧ (buildData p).contains "location_ids" = false) := by
  refine ⟨?_, ?_, ?_⟩
  · intro ho hl
    refine ⟨?_, get_set_self _ _ _⟩
    unfold resolveData
    simp only [ho, hl]
    rfl
  · intro hl ho
    refine ⟨?_, get_set_self _ _ _⟩
    unfold resolveData
    simp only [ho, hl]
    rfl
  · intro ho hl
    refine ⟨?_, ?_, ?_⟩
    · unfold resolveData
      simp only [ho, hl]
    · rw [AttrMap.contains, buildData_get_other p _ (by decide) (by decide)]
      rfl
    · rw [AttrMap.contains, buildData_get_other p _ (by decide) (by decide)]
      rfl

/-- C6 witness: the two sides evaluated on the example spec with an explicit
empty list and with the field unset. -/
theorem claim_C6_empty_vs_absent_witness :
    (resolveData p6orgEmpty noLookup noLookup
       = (.ok ((buildData p6orgEmpty).set "organization_ids" (.vids [])), []))
    ∧ (resolveData p1 noLookup noLookup = (.ok (buildData p1), [])
       ∧ (buildData p1).contains "organization_ids" = false) :=
  ⟨((claim_C6_empty_vs_absent p6orgEmpty noLookup noLookup).1 rfl rfl).1,
   ((claim_C6_empty_vs_absent p1 noLookup noLookup).2.2 rfl rfl).1,
   ((claim_C6_empty_vs_absent p1 noLookup noLookup).2.2 rfl rfl).2.1⟩

/-- C8 counterexample: the caller supplies `base_dn` as the empty string,
yet the working attribute set does not contain `base_dn` — a supplied field
is not always included. -/
theorem claim_C8_counterexample :
    p8.base_dn = some "" ∧ (buildData p8).get "base_dn" = none :=
  ⟨rfl, rfl⟩

/-- C8 amended: the working attribute set holds exactly the keys of the
fixed key list whose parameter value is truthy — a supplied falsy value
(empty string, false, 0) is omitted like an unset field, a defaulted truthy
value (port=389) is included even unsupplied — plus the name; every other
key is absent. -/
theorem claim_C8_amended_truthy_fields (p : Params) (k : String) :
    (k ∈ keys →
       (buildData p).get k
         = (match p.get k with
            | some v => if v.truthy then some v else none
            | none => none))
    ∧ (buildData p).get "name" = some (.vstr p.name)
    ∧ (k ∉ keys → k ≠ "name" → (buildData p).get k = none) := by
  refine ⟨?_, buildData_get_name p, fun h1 h2 => buildData_get_other p k h1 h2⟩
  intro hk
  exact buildData_get_mem p k hk

/-- C9: on the update branch `ensure` returns the pair (True, record), and
`main` hands exactly that value to `exit_json` as `changed` — so the
reported changed value is not a boolean there. -/
theorem claim_C9_update_branch_changed_not_boolean :
    (runModule p1 remDiff).1
      = .ok ⟨.ofPair true (overlay diffRec (buildData p1)), "Test LDAP"⟩
    ∧ ChangedVal.isBool (.ofPair true (overlay diffRec (buildData p1))) = false :=
  ⟨rfl, rfl⟩

/-- C10: the comparator as shipped can never return True: when some
comparison key present in the desired overlay differs it returns False, and
otherwise it dies on the undefined name `organizations_equal` before ever
reaching `return True`. -/
theorem claim_C10_comparator_never_true (data ldap : AttrMap) (ck : List String) :
    (∀ b, ldapsEqualSrc data ldap ck = .ok b → b = false)
    ∧ ((∀ key ∈ ck, data.contains key = true → data.get key = ldap.get key) →
       ldapsEqualSrc data ldap ck = .error (.nameError "organizations_equal")) := by
  constructor
  · intro b hb
    unfold ldapsEqualSrc at hb
    by_cases hany : (ck.any fun key => data.contains key && (data.get key != ldap.get key)) = true
    · rw [if_pos hany] at hb
      exact (Except.ok.inj hb).symm
    · rw [if_neg hany] at hb
      exact absurd hb (by simp)
  · intro h
    unfold ldapsEqualSrc
    rw [if_neg]
    intro hany
    obtain ⟨k, hk, hp⟩ := List.any_eq_true.mp hany
    rw [Bool.and_eq_true] at hp
    have hgk := h k hk hp.1
    rw [hgk] at hp
    simp at hp

/-- One iteration of the attribute-build loop. -/
def buildStep (p : Params) (key : String) (d : AttrMap) : AttrMap :=
  match p.get key with
  | some v => if v.truthy then d.set key v else d
  | none => d

theorem buildFold_cons (p : Params) (k0 : String) (rest : List String)
    (d : AttrMap) : buildFold p (k0 :: rest) d = buildFold p rest (buildStep p k0 d) := rfl

theorem buildStep_get_ne (p : Params) (key : String) (d : AttrMap)
    (k : String) (hk : k ≠ key) : (buildStep p key d).get k = d.get k := by
  unfold buildStep
  cases hp : p.get key with
  | none => rfl
  | some v =>
    by_cases ht : v.truthy = true
    · simp only [ht, if_true]
      exact get_set_ne d key k v hk
    · have htf : v.truthy = false := Bool.eq_false_iff.mpr ht
      simp only [htf, Bool.false_eq_true, if_false]

theorem buildStep_agree (p1 p2 : Params) (key : String) (d1 d2 : AttrMap)
    (bad : String) (hd : ∀ k, k ≠ bad → d1.get k = d2.get k)
    (hpg : key ≠ bad → p1.get key = p2.get key) :
    ∀ k, k ≠ bad → (buildStep p1 key d1).get k = (buildStep p2 key d2).get k := by
  intro k hk
  by_cases hkk : k = key
  · subst hkk
    have hpe := hpg hk
    unfold buildStep
    rw [hpe]
    cases hp : p2.get k with
    | none => exact hd k hk
    | some v =>
      by_cases ht : v.truthy = true
      · simp only [ht, if_true]
        rw [get_set_self, get_set_self]
      · have htf : v.truthy = false := Bool.eq_false_iff.mpr ht
        simp only [htf, Bool.false_eq_true, if_false]
        exact hd k hk
  · rw [buildStep_get_ne p1 key d1 k hkk, buildStep_get_ne p2 key d2 k hkk]
    exact hd k hk

theorem buildFold_agree (p1 p2 : Params) (bad : String) (ks : List String)
    (hp : ∀ key ∈ ks, key ≠ bad → p1.get key = p2.get key) :
    ∀ d1 d2 : AttrMap, (∀ k, k ≠ bad → d1.get k = d2.get k) →
      ∀ k, k ≠ bad → (buildFold p1 ks d1).get k = (buildFold p2 ks d2).get k := by
  induction ks with
  | nil => intro d1 d2 hd; exact hd
  | cons k0 rest ih =>
    intro d1 d2 hd k hk
    rw [buildFold_cons, buildFold_cons]
    exact ih (fun key hkr h => hp key (List.mem_cons_of_mem _ hkr) h)
      (buildStep p1 k0 d1) (buildStep p2 k0 d2)
      (buildStep_agree p1 p2 k0 d1 d2 bad hd
        (fun h => hp k0 (List.mem_cons_self _ _) h))
      k hk

theorem Params_get_update_pw (p : Params) (pw : Option String) (k : String)
    (hk : k ≠ "account_password") :
    Params.get { p with account_password := pw } k = Params.get p k := by
  by_cases h1 : k = "host"
  · subst h1; rfl
  by_cases h2 : k = "port"
  · subst h2; rfl
  by_cases h3 : k = "tls"
  · subst h3; rfl
  by_cases h4 : k = "base_dn"
  · subst h4; rfl
  by_cases h5 : k = "account"
  · subst h5; rfl
  by_cases h6 : k = "attr_login"
  · subst h6; rfl
  by_cases h7 : k = "attr_firstname"
  · subst h7; rfl
  by_cases h8 : k = "attr_lastname"
  · subst h8; rfl
  by_cases h9 : k = "attr_mail"
  · subst h9; rfl
  by_cases h10 : k = "attr_photo"
  · subst h10; rfl
  by_cases h11 : k = "onthefly_register"
  · subst h11; rfl
  by_cases h12 : k = "usergroup_sync"
  · subst h12; rfl
  by_cases h13 : k = "groups_base"
  · subst h13; rfl
  by_cases h14 : k = "server_type"
  · subst h14; rfl
  by_cases h15 : k = "ldap_filter"
  · subst h15; rfl
  unfold Params.get
  simp only [h1, h2, h3, h4, h5, h6, h7, h8, h9, h10, h11, h12, h13, h14, h15,
    hk, if_false]

theorem buildData_pw_agree (p : Params) (pw : Option String) :
    ∀ k, k ≠ "account_password" →
      (buildData { p with account_password := pw }).get k
        = (buildData p).get k := by
  intro k hk
  unfold buildData
  exact buildFold_agree { p with account_password := pw } p
    "account_password" keys
    (fun key _ h => Params_get_update_pw p pw key h)
    _ _ (fun k2 _ => rfl) k hk

theorem ldaps_equal_congr (d1 d2 r : AttrMap)
    (h : ∀ k, k ≠ "account_password" → d1.get k = d2.get k) :
    ldaps_equal d1 r cmp_keys = ldaps_equal d2 r cmp_keys := by
  have hc : ∀ k, k ≠ "account_password" → d1.contains k = d2.contains k :=
    fun k hk => by rw [AttrMap.contains, AttrMap.contains, h k hk]
  have hany : (cmp_keys.any fun key => d1.contains key && (d1.get key != r.get key))
      = (cmp_keys.any fun key => d2.contains key && (d2.get key != r.get key)) := by
    apply list_any_congr
    intro key hkey
    have hkk : key ≠ "account_password" := by
      intro hh
      subst hh
      revert hkey
      decide
    rw [hc key hkk, h key hkk]
  have horg : organizations_equal d1 r = organizations_equal d2 r := by
    unfold organizations_equal
    rw [h "organization_ids" (by decide)]
  have hloc : locations_equal d1 r = locations_equal d2 r := by
    unfold locations_equal
    rw [h "location_ids" (by decide)]
  unfold ldaps_equal
  rw [hany, horg, hloc]

theorem fetchCalls_pw (p : Params) (pw : Option String) (ldap : Option AttrMap) :
    fetchCalls { p with account_password := pw } ldap = fetchCalls p ldap := rfl

theorem resolveData_pw (p : Params) (pw : Option String)
    (oL lL : String → LookupResult) :
    ((resolveData { p with account_password := pw } oL lL).2
        = (resolveData p oL lL).2)
    ∧ (∀ f, (resolveData p oL lL).1 = .error f →
        (resolveData { p with account_password := pw } oL lL).1 = .error f)
    ∧ (∀ d, (resolveData p oL lL).1 = .ok d →
        ∃ d1, (resolveData { p with account_password := pw } oL lL).1 = .ok d1
          ∧ ∀ k, k ≠ "account_password" → d1.get k = d.get k) := by
  cases ho : p.organizations with
  | none =>
    cases hl : p.locations with
    | none =>
      have eP : resolveData p oL lL = (.ok (buildData p), []) := by
        simp only [resolveData, ho, hl]
      have eQ : resolveData { p with account_password := pw } oL lL
          = (.ok (buildData { p with account_password := pw }), []) := by
        simp only [resolveData, ho, hl]
      rw [ho, hl] at eQ
      rw [eP, eQ]
      refine ⟨rfl, fun f hf => absurd hf (by simp), fun d hd => ?_⟩
      cases Except.ok.inj hd
      exact ⟨_, rfl, buildData_pw_agree p pw⟩
    | some lnames =>
      rcases hr : get_location_ids lL lnames with ⟨r, cs⟩
      cases r with
      | error f =>
        have eP : resolveData p oL lL = (.error f, cs) := by
          simp only [resolveData, ho, hl, hr]
        have eQ : resolveData { p with account_password := pw } oL lL
            = (.error f, cs) := by
          simp only [resolveData, ho, hl, hr]
        rw [ho, hl] at eQ
        rw [eP, eQ]
        exact ⟨rfl, fun f2 hf => hf, fun d hd => absurd hd (by simp)⟩
      | ok ids =>
        have eP : resolveData p oL lL
            = (.ok ((buildData p).set "location_ids" (.vids ids)), cs) := by
          simp only [resolveData, ho, hl, hr]
        have eQ : resolveData { p with account_password := pw } oL lL
            = (.ok ((buildData { p with account_password := pw }).set
                 "location_ids" (.vids ids)), cs) := by
          simp only [resolveData, ho, hl, hr]
        rw [ho, hl] at eQ
        rw [eP, eQ]
        refine ⟨rfl, fun f hf => absurd hf (by simp), fun d hd => ?_⟩
        cases Except.ok.inj hd
        exact ⟨_, rfl,
          agree_set _ _ "account_password" "location_ids" (.vids ids)
            (buildData_pw_agree p pw)⟩
  | some onames =>
    rcases hro : get_organization_ids oL onames with ⟨r, cs⟩
    cases r with
    | error f =>
      have eP : resolveData p oL lL = (.error f, cs) := by
        simp only [resolveData, ho, hro]
      have eQ : resolveData { p with account_password := pw } oL lL
          = (.error f, cs) := by
        simp only [resolveData, ho, hro]
      rw [ho] at eQ
      rw [eP, eQ]
      exact ⟨rfl, fun f2 hf => hf, fun d hd => absurd hd (by simp)⟩
    | ok oids =>
      cases hl : p.locations with
      | none =>
        have eP : resolveData p oL lL
            = (.ok ((buildData p).set "organization_ids" (.vids oids)), cs) := by
          simp only [resolveData, ho, hl, hro]
        have eQ : resolveData { p with account_password := pw } oL lL
            = (.ok ((buildData { p with account_password := pw }).set
                 "organization_ids" (.vids oids)), cs) := by
          simp only [resolveData, ho, hl, hro]
        rw [ho, hl] at eQ
        rw [eP, eQ]
        refine ⟨rfl, fun f hf => absurd hf (by simp), fun d hd => ?_⟩
        cases Except.ok.inj hd
        exact ⟨_, rfl,
          agree_set _ _ "account_password" "organization_ids" (.vids oids)
            (buildData_pw_agree p pw)⟩
      | some lnames =>
        rcases hrl : get_location_ids lL lnames with ⟨r2, cs2⟩
        cases r2 with
        | error f =>
          have eP : resolveData p oL lL = (.error f, cs ++ cs2) := by
            simp only [resolveData, ho, hl, hro, hrl]
          have eQ : resolveData { p with account_password := pw } oL lL
              = (.error f, cs ++ cs2) := by
            simp only [resolveData, ho, hl, hro, hrl]
          rw [ho, hl] at eQ
          rw [eP, eQ]
          exact ⟨rfl, fun f2 hf => hf, fun d hd => absurd hd (by simp)⟩
        | ok ids =>
          have eP : resolveData p oL lL
              = (.ok (((buildData p).set "organization_ids" (.vids oids)).set
                   "location_ids" (.vids ids)), cs ++ cs2) := by
            simp only [resolveData, ho, hl, hro, hrl]
          have eQ : resolveData { p with account_password := pw } oL lL
              = (.ok (((buildData { p with account_password := pw }).set
                     "organization_ids" (.vids oids)).set
                   "location_ids" (.vids ids)), cs ++ cs2) := by
            simp only [resolveData, ho, hl, hro, hrl]
          rw [ho, hl] at eQ
          rw [eP, eQ]
          refine ⟨rfl, fun f hf => absurd hf (by simp), fun d hd => ?_⟩
          cases Except.ok.inj hd
          exact ⟨_, rfl,
            agree_set _ _ "account_password" "location_ids" (.vids ids)
              (agree_set _ _ "account_password" "organization_ids" (.vids oids)
                (buildData_pw_agree p pw))⟩

theorem ensureDecide_pw (p : Params) (pw : Option String) (remote : Remote)
    (ldap : Option AttrMap) (d1 d2 : AttrMap)
    (h : ∀ k, k ≠ "account_password" → d1.get k = d2.get k) :
    ((ensureDecide { p with account_password := pw } remote ldap d1).1.map
        EnsureResult.reportsChanged
      = (ensureDecide p remote ldap d2).1.map EnsureResult.reportsChanged)
    ∧ ((ensureDecide { p with account_password := pw } remote ldap d1).2.map
        Call.kind
      = (ensureDecide p remote ldap d2).2.map Call.kind) := by
  have hst : ({ p with account_password := pw } : Params).state = p.state := rfl
  have heq := ldaps_equal_congr d1 d2 (ldap.getD []) h
  unfold ensureDecide
  rw [hst, heq]
  by_cases hg1 : (!pyTruthyDict ldap && (p.state == "present")) = true
  · rw [if_pos hg1, if_pos hg1]
    cases remote.createErr <;>
      simp [Except.map, Call.kind, EnsureResult.reportsChanged]
  · rw [if_neg hg1, if_neg hg1]
    by_cases hg2 : pyTruthyDict ldap = true
    · rw [if_pos hg2, if_pos hg2]
      by_cases hg3 : (p.state == "absent") = true
      · rw [if_pos hg3, if_pos hg3]
        cases remote.deleteErr <;>
          simp [Except.map, Call.kind, EnsureResult.reportsChanged]
      · rw [if_neg hg3, if_neg hg3]
        by_cases hg4 : (!ldaps_equal d2 (ldap.getD []) cmp_keys) = true
        · rw [if_pos hg4, if_pos hg4]
          cases remote.updateErr <;>
            simp [Except.map, Call.kind, EnsureResult.reportsChanged]
        · rw [if_neg hg4, if_neg hg4]
          simp [Except.map, EnsureResult.reportsChanged]
    · rw [if_neg hg2, if_neg hg2]
      simp [Except.map, EnsureResult.reportsChanged]

/-- C3 counterexample: a caller-supplied empty account_password is dropped
from the working attribute set, and the create issued for that spec sends an
attribute set without the password — so a supplied password is not always
included in the attribute set sent on create/update, refuting the claim's
unconditional inclusion clause. -/
theorem claim_C3_counterexample :
    p3cex.account_password = some ""
    ∧ mutations (ensure p3cex rem0).2 = [Call.createLdap (buildData p3cex)]
    ∧ (buildData p3cex).get "account_password" = none :=
  ⟨rfl, rfl, rfl⟩

/-- C3 amended: two invocations whose specs differ only in account_password
take the same decision: account_password is not a comparison key, both runs
report the same changed-ness and issue the same sequence of call kinds; a
supplied nonempty password is part of the working attribute set sent on
create and update, while a supplied empty password is falsy and dropped by
the truthiness build loop. -/
theorem claim_C3_password_never_compared (p : Params) (pw : Option String)
    (remote : Remote) :
    ("account_password" ∉ cmp_keys)
    ∧ ((ensure { p with account_password := pw } remote).1.map
         EnsureResult.reportsChanged
        = (ensure p remote).1.map EnsureResult.reportsChanged)
    ∧ ((ensure { p with account_password := pw } remote).2.map Call.kind
        = (ensure p remote).2.map Call.kind)
    ∧ (∀ s : String, s ≠ "" →
        (buildData { p with account_password := some s }).get "account_password"
          = some (.vstr s))
    ∧ (buildData { p with account_password := some "" }).get "account_password"
        = none := by
  have hpw : ∀ s : String, s ≠ "" →
      (buildData { p with account_password := some s }).get "account_password"
        = some (.vstr s) := by
    intro s hs2
    rw [buildData_get_mem _ _ (by decide)]
    have hpg : Params.get { p with account_password := some s } "account_password"
        = some (.vstr s) := rfl
    rw [hpg]
    simp [Value.truthy, bne_iff_ne, hs2]
  have hdrop : (buildData { p with account_password := some "" }).get
      "account_password" = none := by
    rw [buildData_get_mem _ _ (by decide)]
    have hpg : Params.get { p with account_password := some "" } "account_password"
        = some (.vstr "") := rfl
    rw [hpg]
    simp [Value.truthy]
  suffices hmain : ((ensure { p with account_password := pw } remote).1.map
       EnsureResult.reportsChanged
      = (ensure p remote).1.map EnsureResult.reportsChanged)
      ∧ ((ensure { p with account_password := pw } remote).2.map Call.kind
      = (ensure p remote).2.map Call.kind) by
    exact ⟨by decide, hmain.1, hmain.2, hpw, hdrop⟩
  cases hs : remote.searchErr with
  | some e =>
    constructor <;> simp [ensure, hs, Call.kind]
  | none =>
    obtain ⟨hcs2, herr, hok⟩ :=
      resolveData_pw p pw remote.orgLookup remote.locLookup
    rcases hres : resolveData p remote.orgLookup remote.locLookup with ⟨resv, rcs⟩
    cases resv with
    | error f =>
      have h1' := herr f (by rw [hres])
      have hP' : resolveData { p with account_password := pw }
          remote.orgLookup remote.locLookup = (.error f, rcs) :=
        Prod.ext h1' (by rw [hcs2, hres])
      constructor <;> simp [ensure, hs, hres, hP', Call.kind, fetchCalls_pw]
    | ok d =>
      obtain ⟨d1, h1', hagree⟩ := hok d (by rw [hres])
      have hP' : resolveData { p with account_password := pw }
          remote.orgLookup remote.locLookup = (.ok d1, rcs) :=
        Prod.ext h1' (by rw [hcs2, hres])
      have hrun : ensure p remote
          = ((ensureDecide p remote remote.record d).1,
             fetchCalls p remote.record ++ rcs
               ++ (ensureDecide p remote remote.record d).2) := by
        simp [ensure, hs, hres]
      have hrun' : ensure { p with account_password := pw } remote
          = ((ensureDecide { p with account_password := pw } remote
                remote.record d1).1,
             fetchCalls { p with account_password := pw } remote.record ++ rcs
               ++ (ensureDecide { p with account_password := pw } remote
                     remote.record d1).2) := by
        simp [ensure, hs, hP']
      obtain ⟨hA, hB⟩ :=
        ensureDecide_pw p pw remote remote.record d1 d hagree
      rw [hrun, hrun']
      refine ⟨hA, ?_⟩
      simp only [List.map_append]
      rw [hB, fetchCalls_pw]

end ForemanLdap
